import Mathlib

/-!
Verification of the analog-operation constructors of `qadence/analog/operations.py`:
the Rydberg interaction evolution (`AnalogInteraction`), the generic drive
(`AnalogDrive`) and the three rotation specializations (`AnalogRX`, `AnalogRY`,
`AnalogRZ`).  The symbolic scalars (sympy expressions wrapped as qadence
`Parameter`s) are embedded as an expression tree `SExpr`; generators are formal
sums of (coefficient, operator) terms, the spec's own data model for the
externally supplied block-addition primitive.  The external collaborators
`rydberg_interaction_hamiltonian` and `rydberg_pattern_hamiltonian` are pure
functions of the register and are modelled as fields of `Register`.
-/

namespace Qadence

/-- Symbolic scalar expression tree, mirroring the sympy expressions used by
the Python code: rational constants, the constant pi, free parameters,
arithmetic, natural-number powers, square root, sine and cosine. -/
inductive SExpr : Type where
  | const (q : ℚ)
  | piE
  | var (s : String)
  | addE (a b : SExpr)
  | subE (a b : SExpr)
  | mulE (a b : SExpr)
  | divE (a b : SExpr)
  | powE (a : SExpr) (n : ℕ)
  | negE (a : SExpr)
  | sqrtE (a : SExpr)
  | sinE (a : SExpr)
  | cosE (a : SExpr)
  deriving DecidableEq, Repr

/-- Semantics of a symbolic scalar: its real value under an assignment of the
free parameters. -/
noncomputable def SExpr.eval (env : String → ℝ) : SExpr → ℝ
  | .const q => (q : ℝ)
  | .piE => Real.pi
  | .var s => env s
  | .addE a b => a.eval env + b.eval env
  | .subE a b => a.eval env - b.eval env
  | .mulE a b => a.eval env * b.eval env
  | .divE a b => a.eval env / b.eval env
  | .powE a n => a.eval env ^ n
  | .negE a => -(a.eval env)
  | .sqrtE a => Real.sqrt (a.eval env)
  | .sinE a => Real.sin (a.eval env)
  | .cosE a => Real.cos (a.eval env)

/-- A `TParameter` argument as the Python constructors accept it: a numeric
literal, the name of a free parameter, or an already-built symbolic
expression. -/
inductive TParameter : Type where
  | num (q : ℚ)
  | name (s : String)
  | expr (e : SExpr)
  deriving DecidableEq, Repr

/-- `Parameter(x)`: wrap a `TParameter` into a symbolic scalar (a number
becomes a constant, a string a free variable, an expression is kept). -/
def Parameter : TParameter → SExpr
  | .num q => .const q
  | .name s => .var s
  | .expr e => e

/-- Structural comparison of a symbolic expression with the literal zero, as
sympy's `e == 0` decides it for an already-built expression. -/
def SExpr.isZero : SExpr → Bool
  | .const q => q == 0
  | _ => false

/-- The Python test `x == 0` on a raw constructor argument: true exactly for
the literal constant zero, never for a free name, and for an expression
argument exactly when it is the constant zero. -/
def TParameter.isZeroLit : TParameter → Bool
  | .num q => q == 0
  | .name _ => false
  | .expr e => e.isZero

/-- A base operator occurring in a generator term: a single-qubit `X`, `Y` or
`N` observable on a qubit index, or an opaque externally supplied term (the
interaction and pattern Hamiltonians are sums of such terms). -/
inductive BOp : Type where
  | X (i : ℕ)
  | Y (i : ℕ)
  | N (i : ℕ)
  | other (k : ℕ)
  deriving DecidableEq, Repr

/-- A generator: an ordered formal sum of (coefficient, operator) terms, the
spec's data model for the result of the external block-addition primitive. -/
abbrev Gen := List (SExpr × BOp)

/-- Scalar multiplication of a generator, the external `scalar * block`
primitive: every coefficient is multiplied on the left. -/
def Gen.scale (s : SExpr) (g : Gen) : Gen :=
  g.map fun t => (SExpr.mulE s t.1, t.2)

/-- Negation of a generator: every coefficient is negated. -/
def Gen.negG (g : Gen) : Gen :=
  g.map fun t => (SExpr.negE t.1, t.2)

/-- Block subtraction `a - b`, the external primitive: add the negation. -/
def Gen.sub (a b : Gen) : Gen :=
  a ++ Gen.negG b

/-- The real coefficient a generator assigns to a base operator under an
assignment of the free parameters: the sum of the evaluated coefficients of
the terms carrying that operator. -/
noncomputable def Gen.coeff (g : Gen) (env : String → ℝ) (b : BOp) : ℝ :=
  (g.map fun t => if t.2 = b then t.1.eval env else 0).sum

/-- Semantic equality of generators: they assign every base operator the same
real coefficient under every parameter assignment (the additive semantics of
the spec's Generator, under which term order is irrelevant). -/
def GenEq (g₁ g₂ : Gen) : Prop :=
  ∀ (env : String → ℝ) (b : BOp), Gen.coeff g₁ env b = Gen.coeff g₂ env b

/-- A generator mentions no single-qubit `X` or `Y` operator (true of the
physical interaction and detuning-pattern Hamiltonians). -/
def Gen.noXY (g : Gen) : Bool :=
  g.all fun t =>
    match t.2 with
    | BOp.X _ => false
    | BOp.Y _ => false
    | _ => true

/-- A register: its qubit indices (`nodes`), together with the two generators
the external geometry routines compute from it — the always-present
interaction Hamiltonian and the possibly absent pattern Hamiltonian. -/
structure Register : Type where
  nodes : List ℕ
  interactionGen : Gen
  patternGen : Option Gen
  deriving DecidableEq, Repr

/-- External collaborator `rydberg_interaction_hamiltonian`, a pure function
of the register geometry; modelled as a field of the register. -/
def rydberg_interaction_hamiltonian (register : Register) : Gen :=
  register.interactionGen

/-- External collaborator `rydberg_pattern_hamiltonian`, a pure function of
the register geometry that may return no pattern; modelled as a field. -/
def rydberg_pattern_hamiltonian (register : Register) : Option Gen :=
  register.patternGen

/-- A parameter map: the named record of symbolic quantities an operation
exposes (`ParamMap(role=expression, ...)` in the Python code). -/
abbrev ParamMap := List (String × SExpr)

/-- Look a role up in a parameter map. -/
def ParamMap.get (m : ParamMap) (role : String) : Option SExpr :=
  (m.find? fun p => p.1 == role).map Prod.snd

/-- The data an `AnalogInteraction` instance holds after construction: the
pattern flag, the duration, the generator, the scalar handed to the external
time-evolution primitive (`HamEvo`), and the parameter map. -/
structure AnalogInteractionOp : Type where
  add_pattern : Bool
  duration : SExpr
  generator : Gen
  evoParameter : SExpr
  parameters : ParamMap
  deriving DecidableEq, Repr

/-- `AnalogInteraction.__init__`: evolution of the Rydberg interaction
Hamiltonian, with the pattern term appended when requested and present; the
evolution primitive receives `duration / 1000`. -/
def AnalogInteraction.build (register : Register) (duration : TParameter)
    (add_pattern : Bool := true) : AnalogInteractionOp :=
  let dur := Parameter duration
  let generator := rydberg_interaction_hamiltonian register
  let generator_pattern := rydberg_pattern_hamiltonian register
  let generator :=
    if add_pattern && generator_pattern.isSome then generator ++ generator_pattern.getD []
    else generator
  { add_pattern := add_pattern
    duration := dur
    generator := generator
    evoParameter := SExpr.divE dur (SExpr.const 1000)
    parameters := [("parameter", SExpr.divE dur (SExpr.const 1000)), ("duration", dur)] }

/-- The data an `AnalogDrive` instance holds after construction. -/
structure AnalogDriveOp : Type where
  add_pattern : Bool
  duration : SExpr
  generator : Gen
  evoParameter : SExpr
  parameters : ParamMap
  deriving DecidableEq, Repr

/-- The body of `AnalogDrive.__init__` past the zero-check: the drive
generator `x_terms - y_terms - n_terms + interaction [+ pattern]`, the
evolution scalar `duration / 1000`, and the parameter map with the derived
`h_norm = sqrt(omega**2 + delta**2)` and `alpha = duration * h_norm / 1000`. -/
def AnalogDrive.build (register : Register) (duration omega delta : TParameter)
    (phase : TParameter := TParameter.num 0)
    (qubit_support : Option (List ℕ) := none)
    (add_pattern : Bool := true) : AnalogDriveOp :=
  let dur := Parameter duration
  let support := qubit_support.getD register.nodes
  let ω := Parameter omega
  let δ := Parameter delta
  let φ := Parameter phase
  let x_terms := Gen.scale (SExpr.divE ω (SExpr.const 2))
    (support.map fun i => (SExpr.cosE φ, BOp.X i))
  let y_terms := Gen.scale (SExpr.divE ω (SExpr.const 2))
    (support.map fun i => (SExpr.sinE φ, BOp.Y i))
  let n_terms := Gen.scale δ (support.map fun i => (SExpr.const 1, BOp.N i))
  let generator_interaction := rydberg_interaction_hamiltonian register
  let generator := Gen.sub (Gen.sub x_terms y_terms) n_terms ++ generator_interaction
  let generator_pattern := rydberg_pattern_hamiltonian register
  let generator :=
    if add_pattern && generator_pattern.isSome then generator ++ generator_pattern.getD []
    else generator
  let h_norm := SExpr.sqrtE (SExpr.addE (SExpr.powE ω 2) (SExpr.powE δ 2))
  let alpha := SExpr.divE (SExpr.mulE dur h_norm) (SExpr.const 1000)
  { add_pattern := add_pattern
    duration := dur
    generator := generator
    evoParameter := SExpr.divE dur (SExpr.const 1000)
    parameters :=
      [("parameter", SExpr.divE dur (SExpr.const 1000)),
       ("duration", dur),
       ("alpha", alpha),
       ("omega", ω),
       ("delta", δ),
       ("phase", φ),
       ("h_norm", h_norm)] }

/-- `AnalogDrive.__init__` with its construction-time validation: when the raw
`omega` and `delta` arguments both compare equal to the literal `0` the
invalid-drive error is raised, otherwise construction completes. -/
def AnalogDrive.mk (register : Register) (duration omega delta : TParameter)
    (phase : TParameter := TParameter.num 0)
    (qubit_support : Option (List ℕ) := none)
    (add_pattern : Bool := true) : Except String AnalogDriveOp :=
  if omega.isZeroLit && delta.isZeroLit then
    Except.error "Parameters omega and delta cannot both be 0."
  else
    Except.ok (AnalogDrive.build register duration omega delta phase qubit_support add_pattern)

/-- `PI` as the Python module imports it: the symbolic constant pi. -/
def PI : TParameter := TParameter.expr SExpr.piE

/-- A rotation specialization instance: the caller-supplied angle stored as
the instance's own `alpha` attribute, next to the generic drive it builds. -/
structure AnalogRotOp : Type where
  alpha : SExpr
  drive : AnalogDriveOp
  deriving DecidableEq, Repr

/-- The duration expression `self.alpha / omega * 1000` that `AnalogRX` and
`AnalogRY` pass down (with `omega = PI`), and that `AnalogRZ` builds as
`self.alpha / delta * 1000` (with `delta = PI`). -/
def rotationDuration (alpha : SExpr) : SExpr :=
  SExpr.mulE (SExpr.divE alpha SExpr.piE) (SExpr.const 1000)

/-- `AnalogRX.__init__`: fixes `omega = PI`, `delta = 0`, `phase = 0`, stores
the angle as its own `alpha` and hands the generic drive the back-solved
duration `alpha / omega * 1000`. -/
def AnalogRX.build (register : Register) (angle : TParameter)
    (qubit_support : Option (List ℕ) := none)
    (add_pattern : Bool := true) : AnalogRotOp :=
  let alpha := Parameter angle
  { alpha := alpha
    drive := AnalogDrive.build register (TParameter.expr (rotationDuration alpha)) PI
      (TParameter.num 0) (TParameter.num 0) qubit_support add_pattern }

/-- `AnalogRY.__init__`: as `AnalogRX` but with `phase = -PI/2`. -/
def AnalogRY.build (register : Register) (angle : TParameter)
    (qubit_support : Option (List ℕ) := none)
    (add_pattern : Bool := true) : AnalogRotOp :=
  let alpha := Parameter angle
  { alpha := alpha
    drive := AnalogDrive.build register (TParameter.expr (rotationDuration alpha)) PI
      (TParameter.num 0)
      (TParameter.expr (SExpr.divE (SExpr.negE SExpr.piE) (SExpr.const 2)))
      qubit_support add_pattern }

/-- `AnalogRZ.__init__`: fixes `omega = 0`, `delta = PI`, `phase = 0`, and
derives the duration from the detuning: `alpha / delta * 1000`. -/
def AnalogRZ.build (register : Register) (angle : TParameter)
    (qubit_support : Option (List ℕ) := none)
    (add_pattern : Bool := true) : AnalogRotOp :=
  let alpha := Parameter angle
  { alpha := alpha
    drive := AnalogDrive.build register (TParameter.expr (rotationDuration alpha))
      (TParameter.num 0) PI (TParameter.num 0) qubit_support add_pattern }

/-- `AnalogRX.__init__` including the inherited validation (which can never
fire, since `omega = PI` is not the literal zero). -/
def AnalogRX.mk (register : Register) (angle : TParameter)
    (qubit_support : Option (List ℕ) := none)
    (add_pattern : Bool := true) : Except String AnalogRotOp :=
  let alpha := Parameter angle
  (AnalogDrive.mk register (TParameter.expr (rotationDuration alpha)) PI
      (TParameter.num 0) (TParameter.num 0) qubit_support add_pattern).map
    fun d => { alpha := alpha, drive := d }

/-- `AnalogRY.__init__` including the inherited validation. -/
def AnalogRY.mk (register : Register) (angle : TParameter)
    (qubit_support : Option (List ℕ) := none)
    (add_pattern : Bool := true) : Except String AnalogRotOp :=
  let alpha := Parameter angle
  (AnalogDrive.mk register (TParameter.expr (rotationDuration alpha)) PI
      (TParameter.num 0)
      (TParameter.expr (SExpr.divE (SExpr.negE SExpr.piE) (SExpr.const 2)))
      qubit_support add_pattern).map
    fun d => { alpha := alpha, drive := d }

/-- `AnalogRZ.__init__` including the inherited validation. -/
def AnalogRZ.mk (register : Register) (angle : TParameter)
    (qubit_support : Option (List ℕ) := none)
    (add_pattern : Bool := true) : Except String AnalogRotOp :=
  let alpha := Parameter angle
  (AnalogDrive.mk register (TParameter.expr (rotationDuration alpha))
      (TParameter.num 0) PI (TParameter.num 0) qubit_support add_pattern).map
    fun d => { alpha := alpha, drive := d }

/-- The drive generator exactly as the spec words it (drive mode): for each
qubit `i` of the support, the term `(omega/2)*cos(phase)*X(i)` is added, the
term `(omega/2)*sin(phase)*Y(i)` subtracted and the term `delta*N(i)`
subtracted; then the interaction term is added, then the pattern term only
when the inclusion flag is set and a pattern exists. -/
def specDriveGenerator (register : Register) (omega delta phase : TParameter)
    (support : List ℕ) (add_pattern : Bool) : Gen :=
  (support.flatMap fun i =>
    [(SExpr.mulE (SExpr.divE (Parameter omega) (SExpr.const 2))
        (SExpr.cosE (Parameter phase)), BOp.X i),
     (SExpr.negE (SExpr.mulE (SExpr.divE (Parameter omega) (SExpr.const 2))
        (SExpr.sinE (Parameter phase))), BOp.Y i),
     (SExpr.negE (Parameter delta), BOp.N i)])
  ++ rydberg_interaction_hamiltonian register
  ++ (if add_pattern && (rydberg_pattern_hamiltonian register).isSome
      then (rydberg_pattern_hamiltonian register).getD [] else [])

/-- A concrete register with two qubits, an opaque interaction term and no
pattern Hamiltonian, used to instantiate theorems at concrete inputs. -/
def regW : Register :=
  { nodes := [0, 1]
    interactionGen := [(SExpr.const 1, BOp.other 0)]
    patternGen := none }

/-- A concrete register that does carry a pattern Hamiltonian. -/
def regP : Register :=
  { nodes := [0, 1]
    interactionGen := [(SExpr.const 1, BOp.other 0)]
    patternGen := some [(SExpr.const 2, BOp.N 0)] }

theorem Gen.coeff_nil (env : String → ℝ) (b : BOp) : Gen.coeff [] env b = 0 := rfl

theorem Gen.coeff_cons (t : SExpr × BOp) (g : Gen) (env : String → ℝ) (b : BOp) :
    Gen.coeff (t :: g) env b = (if t.2 = b then t.1.eval env else 0) + Gen.coeff g env b := by
  simp [Gen.coeff]

theorem Gen.coeff_append (g₁ g₂ : Gen) (env : String → ℝ) (b : BOp) :
    Gen.coeff (g₁ ++ g₂) env b = Gen.coeff g₁ env b + Gen.coeff g₂ env b := by
  simp [Gen.coeff]

theorem Gen.coeff_flatMap (f : ℕ → Gen) (l : List ℕ) (env : String → ℝ) (b : BOp) :
    Gen.coeff (l.flatMap f) env b = (l.map fun i => Gen.coeff (f i) env b).sum := by
  induction l with
  | nil => rfl
  | cons i rest ih => simp [List.flatMap_cons, Gen.coeff_append, ih]

theorem Gen.coeff_map (f : ℕ → SExpr × BOp) (l : List ℕ) (env : String → ℝ) (b : BOp) :
    Gen.coeff (l.map f) env b
      = (l.map fun i => if (f i).2 = b then (f i).1.eval env else 0).sum := by
  simp only [Gen.coeff, List.map_map]
  rfl

theorem Gen.scale_map (s : SExpr) (f : ℕ → SExpr × BOp) (l : List ℕ) :
    Gen.scale s (l.map f) = l.map fun i => (SExpr.mulE s (f i).1, (f i).2) := by
  simp [Gen.scale, List.map_map, Function.comp]

theorem Gen.negG_map (f : ℕ → SExpr × BOp) (l : List ℕ) :
    Gen.negG (l.map f) = l.map fun i => (SExpr.negE (f i).1, (f i).2) := by
  simp [Gen.negG, List.map_map, Function.comp]

theorem sum_three_split (a b c : ℕ → ℝ) (l : List ℕ) :
    (l.map a).sum + (l.map b).sum + (l.map c).sum
      = (l.map fun i => a i + (b i + (c i + 0))).sum := by
  induction l with
  | nil => simp
  | cons j rest ih => simp only [List.map_cons, List.sum_cons]; linarith [ih]

theorem drive_terms_coeff_core (ω δ φ : SExpr) (l : List ℕ) (env : String → ℝ) (b : BOp) :
    Gen.coeff (Gen.scale (SExpr.divE ω (SExpr.const 2))
        (l.map fun i => (SExpr.cosE φ, BOp.X i))) env b
      + Gen.coeff (Gen.negG (Gen.scale (SExpr.divE ω (SExpr.const 2))
          (l.map fun i => (SExpr.sinE φ, BOp.Y i)))) env b
      + Gen.coeff (Gen.negG (Gen.scale δ (l.map fun i => (SExpr.const 1, BOp.N i)))) env b
      = Gen.coeff (l.flatMap fun i =>
          [(SExpr.mulE (SExpr.divE ω (SExpr.const 2)) (SExpr.cosE φ), BOp.X i),
           (SExpr.negE (SExpr.mulE (SExpr.divE ω (SExpr.const 2)) (SExpr.sinE φ)), BOp.Y i),
           (SExpr.negE δ, BOp.N i)]) env b := by
  rw [Gen.scale_map, Gen.scale_map, Gen.scale_map, Gen.negG_map, Gen.negG_map,
    Gen.coeff_map, Gen.coeff_map, Gen.coeff_map, Gen.coeff_flatMap]
  simp only [Gen.coeff_cons, Gen.coeff_nil]
  have hmap : (l.map fun i =>
        (if BOp.X i = b then (SExpr.mulE (SExpr.divE ω (SExpr.const 2)) (SExpr.cosE φ)).eval env else 0)
        + ((if BOp.Y i = b
            then (SExpr.negE (SExpr.mulE (SExpr.divE ω (SExpr.const 2)) (SExpr.sinE φ))).eval env else 0)
          + ((if BOp.N i = b then (SExpr.negE δ).eval env else 0) + 0)))
      = l.map fun i =>
        (if BOp.X i = b then (SExpr.mulE (SExpr.divE ω (SExpr.const 2)) (SExpr.cosE φ)).eval env else 0)
        + ((if BOp.Y i = b
            then (SExpr.negE (SExpr.mulE (SExpr.divE ω (SExpr.const 2)) (SExpr.sinE φ))).eval env else 0)
          + ((if BOp.N i = b then (SExpr.negE (SExpr.mulE δ (SExpr.const 1))).eval env else 0) + 0)) := by
    apply List.map_congr_left
    intro i _
    by_cases hN : BOp.N i = b <;> simp [hN, SExpr.eval]
  rw [hmap]
  exact sum_three_split _ _ _ l

/-- C1: for every register, duration, omega, delta, phase and non-empty qubit
support, the generator built by `AnalogDrive` equals (as a Hamiltonian, i.e.
coefficient-wise under every parameter assignment) the sum over each qubit `i`
of the support of `(omega/2)*cos(phase)*X(i)`, minus `(omega/2)*sin(phase)*Y(i)`,
minus `delta*N(i)`, plus the interaction term, plus the pattern term exactly
when the inclusion flag is set and a pattern exists. -/
theorem analogDrive_generator_matches_spec (register : Register)
    (duration omega delta phase : TParameter) (qubit_support : Option (List ℕ))
    (add_pattern : Bool) (_hne : qubit_support.getD register.nodes ≠ []) :
    GenEq (AnalogDrive.build register duration omega delta phase
        qubit_support add_pattern).generator
      (specDriveGenerator register omega delta phase
        (qubit_support.getD register.nodes) add_pattern) := by
  intro env b
  have hcore := drive_terms_coeff_core (Parameter omega) (Parameter delta) (Parameter phase)
    (qubit_support.getD register.nodes) env b
  simp only [AnalogDrive.build, specDriveGenerator]
  by_cases hc : (add_pattern && (rydberg_pattern_hamiltonian register).isSome) = true
  · simp only [hc, if_true, Gen.sub, Gen.coeff_append]
    linarith [hcore]
  · simp only [Bool.not_eq_true] at hc
    simp only [hc, Bool.false_eq_true, if_false, Gen.sub, Gen.coeff_append, Gen.coeff_nil]
    linarith [hcore]

/-- Witness for C1 at a concrete register and support. -/
theorem analogDrive_generator_matches_spec_witness :
    ((some [0, 1] : Option (List ℕ)).getD regW.nodes ≠ [])
    ∧ GenEq (AnalogDrive.build regW (TParameter.num 3) (TParameter.name "w")
        (TParameter.num 1) (TParameter.num 0) (some [0, 1]) true).generator
      (specDriveGenerator regW (TParameter.name "w") (TParameter.num 1) (TParameter.num 0)
        ((some [0, 1] : Option (List ℕ)).getD regW.nodes) true) :=
  ⟨by decide, analogDrive_generator_matches_spec regW (TParameter.num 3) (TParameter.name "w")
    (TParameter.num 1) (TParameter.num 0) (some [0, 1]) true (by decide)⟩

/-- C2: constructing `AnalogDrive` raises the invalid-drive error exactly when
the raw `omega` and `delta` arguments are both the literal constant zero, and
otherwise (a nonzero literal, a free name, or a compound expression on either
side) construction succeeds. -/
theorem analogDrive_zero_validation (register : Register)
    (duration omega delta phase : TParameter) (qubit_support : Option (List ℕ))
    (add_pattern : Bool) :
    (AnalogDrive.mk register duration omega delta phase qubit_support add_pattern
        = Except.error "Parameters omega and delta cannot both be 0."
      ↔ omega.isZeroLit = true ∧ delta.isZeroLit = true)
    ∧ (AnalogDrive.mk register duration omega delta phase qubit_support add_pattern
        = Except.ok (AnalogDrive.build register duration omega delta phase
            qubit_support add_pattern)
      ↔ ¬(omega.isZeroLit = true ∧ delta.isZeroLit = true)) := by
  unfold AnalogDrive.mk
  by_cases hz : (omega.isZeroLit && delta.isZeroLit) = true
  · simp only [hz, if_true]
    constructor
    · simp only [true_iff]
      exact Bool.and_eq_true omega.isZeroLit delta.isZeroLit |>.mp hz
    · constructor
      · intro he
        exact absurd he (by simp)
      · intro hn
        exact absurd (Bool.and_eq_true omega.isZeroLit delta.isZeroLit |>.mp hz) hn
  · simp only [Bool.not_eq_true] at hz
    simp only [hz, Bool.false_eq_true, if_false]
    constructor
    · constructor
      · intro he
        exact absurd he (by simp)
      · intro hand
        have : (omega.isZeroLit && delta.isZeroLit) = true :=
          Bool.and_eq_true omega.isZeroLit delta.isZeroLit |>.mpr hand
        rw [hz] at this
        exact absurd this (by simp)
    · simp only [true_iff]
      intro hand
      have : (omega.isZeroLit && delta.isZeroLit) = true :=
        Bool.and_eq_true omega.isZeroLit delta.isZeroLit |>.mpr hand
      rw [hz] at this
      exact absurd this (by simp)

/-- C3: for every operation variant (interaction, generic drive and the three
rotations), the scalar handed to the external time-evolution primitive is the
operation's requested duration divided by 1000, and the parameter map's
`parameter` role holds exactly this scaled-duration expression. -/
theorem scaled_duration_uniform (register : Register)
    (duration omega delta phase angle : TParameter) (qubit_support : Option (List ℕ))
    (add_pattern : Bool) :
    ((AnalogInteraction.build register duration add_pattern).evoParameter
        = SExpr.divE (AnalogInteraction.build register duration add_pattern).duration
            (SExpr.const 1000)
      ∧ (AnalogInteraction.build register duration add_pattern).parameters.get "parameter"
        = some (SExpr.divE (AnalogInteraction.build register duration add_pattern).duration
            (SExpr.const 1000)))
    ∧ ((AnalogDrive.build register duration omega delta phase
          qubit_support add_pattern).evoParameter
        = SExpr.divE (AnalogDrive.build register duration omega delta phase
            qubit_support add_pattern).duration (SExpr.const 1000)
      ∧ (AnalogDrive.build register duration omega delta phase
          qubit_support add_pattern).parameters.get "parameter"
        = some (SExpr.divE (AnalogDrive.build register duration omega delta phase
            qubit_support add_pattern).duration (SExpr.const 1000)))
    ∧ ((AnalogRX.build register angle qubit_support add_pattern).drive.evoParameter
        = SExpr.divE (AnalogRX.build register angle qubit_support add_pattern).drive.duration
            (SExpr.const 1000)
      ∧ (AnalogRX.build register angle qubit_support add_pattern).drive.parameters.get "parameter"
        = some (SExpr.divE (AnalogRX.build register angle
            qubit_support add_pattern).drive.duration (SExpr.const 1000)))
    ∧ ((AnalogRY.build register angle qubit_support add_pattern).drive.evoParameter
        = SExpr.divE (AnalogRY.build register angle qubit_support add_pattern).drive.duration
            (SExpr.const 1000)
      ∧ (AnalogRY.build register angle qubit_support add_pattern).drive.parameters.get "parameter"
        = some (SExpr.divE (AnalogRY.build register angle
            qubit_support add_pattern).drive.duration (SExpr.const 1000)))
    ∧ ((AnalogRZ.build register angle qubit_support add_pattern).drive.evoParameter
        = SExpr.divE (AnalogRZ.build register angle qubit_support add_pattern).drive.duration
            (SExpr.const 1000)
      ∧ (AnalogRZ.build register angle qubit_support add_pattern).drive.parameters.get "parameter"
        = some (SExpr.divE (AnalogRZ.build register angle
            qubit_support add_pattern).drive.duration (SExpr.const 1000))) :=
  ⟨⟨rfl, rfl⟩, ⟨rfl, rfl⟩, ⟨rfl, rfl⟩, ⟨rfl, rfl⟩, ⟨rfl, rfl⟩⟩

/-- C4: every successfully constructed generic drive binds the role `h_norm`
to the symbolic expression `sqrt(omega^2 + delta^2)` and the role `alpha` to
the symbolic expression `duration * h_norm / 1000`, built from the constructor
arguments. -/
theorem drive_h_norm_alpha_roles (register : Register)
    (duration omega delta phase : TParameter) (qubit_support : Option (List ℕ))
    (add_pattern : Bool) (d : AnalogDriveOp)
    (h : AnalogDrive.mk register duration omega delta phase qubit_support add_pattern
      = Except.ok d) :
    d.parameters.get "h_norm"
      = some (SExpr.sqrtE (SExpr.addE (SExpr.powE (Parameter omega) 2)
          (SExpr.powE (Parameter delta) 2)))
    ∧ d.parameters.get "alpha"
      = some (SExpr.divE (SExpr.mulE (Parameter duration)
          (SExpr.sqrtE (SExpr.addE (SExpr.powE (Parameter omega) 2)
            (SExpr.powE (Parameter delta) 2))))
          (SExpr.const 1000)) := by
  unfold AnalogDrive.mk at h
  by_cases hz : (omega.isZeroLit && delta.isZeroLit) = true
  · rw [if_pos hz] at h
    exact absurd h (by simp)
  · rw [if_neg hz] at h
    have hd : AnalogDrive.build register duration omega delta phase
        qubit_support add_pattern = d := by
      injection h
    subst hd
    exact ⟨rfl, rfl⟩

/-- Witness for C4 at a concrete drive. -/
theorem drive_h_norm_alpha_roles_witness :
    (AnalogDrive.mk regW (TParameter.num 2) (TParameter.num 3) (TParameter.num 5)
        (TParameter.num 0) none true
      = Except.ok (AnalogDrive.build regW (TParameter.num 2) (TParameter.num 3)
          (TParameter.num 5) (TParameter.num 0) none true))
    ∧ ((AnalogDrive.build regW (TParameter.num 2) (TParameter.num 3) (TParameter.num 5)
          (TParameter.num 0) none true).parameters.get "h_norm"
        = some (SExpr.sqrtE (SExpr.addE (SExpr.powE (Parameter (TParameter.num 3)) 2)
            (SExpr.powE (Parameter (TParameter.num 5)) 2)))
      ∧ (AnalogDrive.build regW (TParameter.num 2) (TParameter.num 3) (TParameter.num 5)
          (TParameter.num 0) none true).parameters.get "alpha"
        = some (SExpr.divE (SExpr.mulE (Parameter (TParameter.num 2))
            (SExpr.sqrtE (SExpr.addE (SExpr.powE (Parameter (TParameter.num 3)) 2)
              (SExpr.powE (Parameter (TParameter.num 5)) 2))))
            (SExpr.const 1000))) :=
  ⟨rfl, drive_h_norm_alpha_roles regW (TParameter.num 2) (TParameter.num 3) (TParameter.num 5)
    (TParameter.num 0) none true _ rfl⟩

/-- C5: `AnalogRX` fixes `omega = pi`, `delta = 0`, `phase = 0`, computes its
duration as `angle/omega * 1000`, and the scalar passed to the evolution
primitive evaluates to `angle/pi`; `AnalogRZ` fixes `omega = 0`, `delta = pi`,
`phase = 0`, computes its duration as `angle/delta * 1000` (its `delta` being
`pi`), and also passes `angle/pi`. -/
theorem rotation_effective_duration (register : Register) (angle : TParameter)
    (qubit_support : Option (List ℕ)) (add_pattern : Bool) :
    ((AnalogRX.build register angle qubit_support add_pattern).drive.parameters.get "omega"
        = some SExpr.piE
      ∧ (AnalogRX.build register angle qubit_support add_pattern).drive.parameters.get "delta"
        = some (SExpr.const 0)
      ∧ (AnalogRX.build register angle qubit_support add_pattern).drive.parameters.get "phase"
        = some (SExpr.const 0)
      ∧ (AnalogRX.build register angle qubit_support add_pattern).drive.duration
        = SExpr.mulE (SExpr.divE (Parameter angle) SExpr.piE) (SExpr.const 1000)
      ∧ ∀ env : String → ℝ,
          ((AnalogRX.build register angle qubit_support add_pattern).drive.evoParameter).eval env
            = (Parameter angle).eval env / Real.pi)
    ∧ ((AnalogRZ.build register angle qubit_support add_pattern).drive.parameters.get "omega"
        = some (SExpr.const 0)
      ∧ (AnalogRZ.build register angle qubit_support add_pattern).drive.parameters.get "delta"
        = some SExpr.piE
      ∧ (AnalogRZ.build register angle qubit_support add_pattern).drive.parameters.get "phase"
        = some (SExpr.const 0)
      ∧ (AnalogRZ.build register angle qubit_support add_pattern).drive.duration
        = SExpr.mulE (SExpr.divE (Parameter angle) SExpr.piE) (SExpr.const 1000)
      ∧ ∀ env : String → ℝ,
          ((AnalogRZ.build register angle qubit_support add_pattern).drive.evoParameter).eval env
            = (Parameter angle).eval env / Real.pi) := by
  refine ⟨⟨rfl, rfl, rfl, rfl, ?_⟩, ⟨rfl, rfl, rfl, rfl, ?_⟩⟩ <;>
  · intro env
    show (SExpr.divE (SExpr.mulE (SExpr.divE (Parameter angle) SExpr.piE) (SExpr.const 1000))
        (SExpr.const 1000)).eval env = (Parameter angle).eval env / Real.pi
    simp only [SExpr.eval]
    have h1000 : ((1000 : ℚ) : ℝ) ≠ 0 := by norm_num
    field_simp
    ring

/-- C6: `AnalogRY` differs from `AnalogRX` only in the fixed phase (`-pi/2`
instead of `0`): for equal angles the derived `alpha`, `h_norm`, the duration
and the scalar passed to the evolution primitive are identical. -/
theorem ry_differs_from_rx_only_in_phase (register : Register) (angle : TParameter)
    (qubit_support : Option (List ℕ)) (add_pattern : Bool) :
    ((AnalogRX.build register angle qubit_support add_pattern).drive.parameters.get "phase"
        = some (SExpr.const 0)
      ∧ (AnalogRY.build register angle qubit_support add_pattern).drive.parameters.get "phase"
        = some (SExpr.divE (SExpr.negE SExpr.piE) (SExpr.const 2)))
    ∧ (AnalogRY.build register angle qubit_support add_pattern).drive.parameters.get "alpha"
      = (AnalogRX.build register angle qubit_support add_pattern).drive.parameters.get "alpha"
    ∧ (AnalogRY.build register angle qubit_support add_pattern).drive.parameters.get "h_norm"
      = (AnalogRX.build register angle qubit_support add_pattern).drive.parameters.get "h_norm"
    ∧ (AnalogRY.build register angle qubit_support add_pattern).drive.duration
      = (AnalogRX.build register angle qubit_support add_pattern).drive.duration
    ∧ (AnalogRY.build register angle qubit_support add_pattern).drive.evoParameter
      = (AnalogRX.build register angle qubit_support add_pattern).drive.evoParameter :=
  ⟨⟨rfl, rfl⟩, rfl, rfl, rfl, rfl⟩

/-- C7: on a register with no pattern Hamiltonian, the generator of the
interaction operation and of the generic drive is the same whether the
pattern-inclusion flag is true or false; and the interaction operation built
with the flag false has the interaction term alone as its generator on any
register, pattern or not. -/
theorem pattern_absent_flag_inert (register altReg : Register)
    (duration omega delta phase : TParameter) (qubit_support : Option (List ℕ))
    (h : register.patternGen = none) :
    (AnalogInteraction.build register duration true).generator
      = (AnalogInteraction.build register duration false).generator
    ∧ (AnalogDrive.build register duration omega delta phase qubit_support true).generator
      = (AnalogDrive.build register duration omega delta phase qubit_support false).generator
    ∧ (AnalogInteraction.build altReg duration false).generator = altReg.interactionGen := by
  refine ⟨?_, ?_, ?_⟩
  · simp [AnalogInteraction.build, rydberg_pattern_hamiltonian, h]
  · simp [AnalogDrive.build, rydberg_pattern_hamiltonian, h]
  · simp [AnalogInteraction.build, rydberg_interaction_hamiltonian]

/-- Witness for C7: a register without a pattern, and one with a pattern for
the interaction-alone part. -/
theorem pattern_absent_flag_inert_witness :
    regW.patternGen = none
    ∧ ((AnalogInteraction.build regW (TParameter.num 7) true).generator
        = (AnalogInteraction.build regW (TParameter.num 7) false).generator
      ∧ (AnalogDrive.build regW (TParameter.num 7) (TParameter.num 1) (TParameter.num 0)
          (TParameter.num 0) none true).generator
        = (AnalogDrive.build regW (TParameter.num 7) (TParameter.num 1) (TParameter.num 0)
          (TParameter.num 0) none false).generator
      ∧ (AnalogInteraction.build regP (TParameter.num 7) false).generator
        = regP.interactionGen) :=
  ⟨rfl, pattern_absent_flag_inert regW regP (TParameter.num 7) (TParameter.num 1)
    (TParameter.num 0) (TParameter.num 0) none rfl⟩

/-- C8 counterexample: in the claimed end-to-end build (2-qubit support,
`omega = pi`, `delta = 0`, `phase = 0`, `duration = 1000`) the parameter map's
`parameter` role holds `duration/1000 = 1000/1000`, which evaluates to `1` and
not to `pi/1000` as the claim states. -/
theorem drive_parameter_role_not_pi_div_1000 :
    (AnalogDrive.build regW (TParameter.num 1000) PI (TParameter.num 0) (TParameter.num 0)
        (some [0, 1]) true).parameters.get "parameter"
      = some (SExpr.divE (SExpr.const 1000) (SExpr.const 1000))
    ∧ (SExpr.divE (SExpr.const 1000) (SExpr.const 1000)).eval (fun _ => 0) = 1
    ∧ (1 : ℝ) ≠ Real.pi / 1000 := by
  refine ⟨rfl, ?_, ?_⟩
  · simp [SExpr.eval]
  · intro he
    have hpi := Real.pi_lt_d2
    linarith

/-- C8 (amended): the end-to-end build of a generic drive on the 2-qubit
support `[0, 1]` with `omega = pi`, `delta = 0`, `phase = 0`,
`duration = 1000` on a register without a pattern succeeds, its generator
equals `(pi/2)(X(0) + X(1))` plus the interaction term, the `parameter` role
holds the scaled duration `1000/1000`, and the scalar handed to the evolution
primitive evaluates to `1`. -/
theorem drive_two_qubit_end_to_end (register : Register) (h : register.patternGen = none) :
    AnalogDrive.mk register (TParameter.num 1000) PI (TParameter.num 0) (TParameter.num 0)
        (some [0, 1]) true
      = Except.ok (AnalogDrive.build register (TParameter.num 1000) PI (TParameter.num 0)
          (TParameter.num 0) (some [0, 1]) true)
    ∧ GenEq (AnalogDrive.build register (TParameter.num 1000) PI (TParameter.num 0)
          (TParameter.num 0) (some [0, 1]) true).generator
        ([(SExpr.divE SExpr.piE (SExpr.const 2), BOp.X 0),
          (SExpr.divE SExpr.piE (SExpr.const 2), BOp.X 1)] ++ register.interactionGen)
    ∧ (AnalogDrive.build register (TParameter.num 1000) PI (TParameter.num 0) (TParameter.num 0)
          (some [0, 1]) true).parameters.get "parameter"
      = some (SExpr.divE (SExpr.const 1000) (SExpr.const 1000))
    ∧ ∀ env : String → ℝ,
        ((AnalogDrive.build register (TParameter.num 1000) PI (TParameter.num 0)
          (TParameter.num 0) (some [0, 1]) true).evoParameter).eval env = 1 := by
  refine ⟨rfl, ?_, rfl, ?_⟩
  · intro env b
    have hgen : (AnalogDrive.build register (TParameter.num 1000) PI (TParameter.num 0)
        (TParameter.num 0) (some [0, 1]) true).generator
        = [(SExpr.mulE (SExpr.divE SExpr.piE (SExpr.const 2)) (SExpr.cosE (SExpr.const 0)),
            BOp.X 0),
           (SExpr.mulE (SExpr.divE SExpr.piE (SExpr.const 2)) (SExpr.cosE (SExpr.const 0)),
            BOp.X 1),
           (SExpr.negE (SExpr.mulE (SExpr.divE SExpr.piE (SExpr.const 2))
            (SExpr.sinE (SExpr.const 0))), BOp.Y 0),
           (SExpr.negE (SExpr.mulE (SExpr.divE SExpr.piE (SExpr.const 2))
            (SExpr.sinE (SExpr.const 0))), BOp.Y 1),
           (SExpr.negE (SExpr.mulE (SExpr.const 0) (SExpr.const 1)), BOp.N 0),
           (SExpr.negE (SExpr.mulE (SExpr.const 0) (SExpr.const 1)), BOp.N 1)]
          ++ register.interactionGen := by
      simp [AnalogDrive.build, rydberg_pattern_hamiltonian, rydberg_interaction_hamiltonian, h,
        Gen.sub, Gen.scale, Gen.negG, Parameter, PI]
    rw [hgen, Gen.coeff_append, Gen.coeff_append]
    simp only [Gen.coeff_cons, Gen.coeff_nil, SExpr.eval]
    simp
  · intro env
    show (SExpr.divE (SExpr.const 1000) (SExpr.const 1000)).eval env = 1
    simp [SExpr.eval]

/-- Witness for C8 at the concrete pattern-free register. -/
theorem drive_two_qubit_end_to_end_witness :
    regW.patternGen = none
    ∧ (AnalogDrive.mk regW (TParameter.num 1000) PI (TParameter.num 0) (TParameter.num 0)
          (some [0, 1]) true
        = Except.ok (AnalogDrive.build regW (TParameter.num 1000) PI (TParameter.num 0)
            (TParameter.num 0) (some [0, 1]) true)
      ∧ GenEq (AnalogDrive.build regW (TParameter.num 1000) PI (TParameter.num 0)
            (TParameter.num 0) (some [0, 1]) true).generator
          ([(SExpr.divE SExpr.piE (SExpr.const 2), BOp.X 0),
            (SExpr.divE SExpr.piE (SExpr.const 2), BOp.X 1)] ++ regW.interactionGen)
      ∧ (AnalogDrive.build regW (TParameter.num 1000) PI (TParameter.num 0) (TParameter.num 0)
            (some [0, 1]) true).parameters.get "parameter"
        = some (SExpr.divE (SExpr.const 1000) (SExpr.const 1000))
      ∧ ∀ env : String → ℝ,
          ((AnalogDrive.build regW (TParameter.num 1000) PI (TParameter.num 0)
            (TParameter.num 0) (some [0, 1]) true).evoParameter).eval env = 1) :=
  ⟨rfl, drive_two_qubit_end_to_end regW rfl⟩

/-- C9: each rotation specialization stores the caller-supplied angle as its
own `alpha` attribute, while the parameter map's `alpha` role holds the
derived expression `duration * h_norm / 1000`; the two storage locations are
separate, and the derived expression evaluates to the angle itself under
every parameter assignment. -/
theorem rotation_alpha_two_storages (register : Register) (angle : TParameter)
    (qubit_support : Option (List ℕ)) (add_pattern : Bool) :
    ((AnalogRX.build register angle qubit_support add_pattern).alpha = Parameter angle
      ∧ (AnalogRX.build register angle qubit_support add_pattern).drive.parameters.get "alpha"
        = some (SExpr.divE (SExpr.mulE (SExpr.mulE (SExpr.divE (Parameter angle) SExpr.piE)
              (SExpr.const 1000))
            (SExpr.sqrtE (SExpr.addE (SExpr.powE SExpr.piE 2) (SExpr.powE (SExpr.const 0) 2))))
            (SExpr.const 1000))
      ∧ ∀ env : String → ℝ,
          (SExpr.divE (SExpr.mulE (SExpr.mulE (SExpr.divE (Parameter angle) SExpr.piE)
              (SExpr.const 1000))
            (SExpr.sqrtE (SExpr.addE (SExpr.powE SExpr.piE 2) (SExpr.powE (SExpr.const 0) 2))))
            (SExpr.const 1000)).eval env = (Parameter angle).eval env)
    ∧ ((AnalogRY.build register angle qubit_support add_pattern).alpha = Parameter angle
      ∧ (AnalogRY.build register angle qubit_support add_pattern).drive.parameters.get "alpha"
        = some (SExpr.divE (SExpr.mulE (SExpr.mulE (SExpr.divE (Parameter angle) SExpr.piE)
              (SExpr.const 1000))
            (SExpr.sqrtE (SExpr.addE (SExpr.powE SExpr.piE 2) (SExpr.powE (SExpr.const 0) 2))))
            (SExpr.const 1000)))
    ∧ ((AnalogRZ.build register angle qubit_support add_pattern).alpha = Parameter angle
      ∧ (AnalogRZ.build register angle qubit_support add_pattern).drive.parameters.get "alpha"
        = some (SExpr.divE (SExpr.mulE (SExpr.mulE (SExpr.divE (Parameter angle) SExpr.piE)
              (SExpr.const 1000))
            (SExpr.sqrtE (SExpr.addE (SExpr.powE (SExpr.const 0) 2) (SExpr.powE SExpr.piE 2))))
            (SExpr.const 1000))
      ∧ ∀ env : String → ℝ,
          (SExpr.divE (SExpr.mulE (SExpr.mulE (SExpr.divE (Parameter angle) SExpr.piE)
              (SExpr.const 1000))
            (SExpr.sqrtE (SExpr.addE (SExpr.powE (SExpr.const 0) 2) (SExpr.powE SExpr.piE 2))))
            (SExpr.const 1000)).eval env = (Parameter angle).eval env) := by
  refine ⟨⟨rfl, rfl, ?_⟩, ⟨rfl, rfl⟩, ⟨rfl, rfl, ?_⟩⟩ <;>
  · intro env
    simp only [SExpr.eval]
    rw [show (((0 : ℚ) : ℝ)) = 0 by norm_num]
    rw [show ((0 : ℝ) ^ (2 : ℕ)) = 0 by norm_num]
    first
      | rw [add_zero, Real.sqrt_sq Real.pi_nonneg]
      | rw [zero_add, Real.sqrt_sq Real.pi_nonneg]
    have h1000 : ((1000 : ℚ) : ℝ) ≠ 0 := by norm_num
    field_simp

/-- C10: when `AnalogDrive` is built without an explicit phase the phase role
holds the literal constant `0`, so every per-qubit `Y` drive term has a
coefficient evaluating to `0` and every per-qubit `X` drive term a coefficient
evaluating to `omega/2`; likewise the pattern-inclusion flag defaults to
`true`. -/
theorem drive_defaults_phase_zero_pattern_true (register : Register)
    (duration omega delta : TParameter)
    (hI : Gen.noXY register.interactionGen = true)
    (hP : Gen.noXY (register.patternGen.getD []) = true) :
    AnalogDrive.mk register duration omega delta
      = AnalogDrive.mk register duration omega delta (TParameter.num 0) none true
    ∧ AnalogDrive.build register duration omega delta
      = AnalogDrive.build register duration omega delta (TParameter.num 0) none true
    ∧ (AnalogDrive.build register duration omega delta).add_pattern = true
    ∧ (AnalogDrive.build register duration omega delta).parameters.get "phase"
      = some (SExpr.const 0)
    ∧ ∀ t ∈ (AnalogDrive.build register duration omega delta).generator,
        ∀ (env : String → ℝ) (i : ℕ),
          (t.2 = BOp.Y i → t.1.eval env = 0)
          ∧ (t.2 = BOp.X i → t.1.eval env = (Parameter omega).eval env / 2) := by
  refine ⟨rfl, rfl, rfl, rfl, ?_⟩
  intro t ht env i
  have hxcase : ∀ j : ℕ, t = (SExpr.mulE (SExpr.divE (Parameter omega) (SExpr.const 2))
      (SExpr.cosE (SExpr.const 0)), BOp.X j) →
      (t.2 = BOp.Y i → t.1.eval env = 0)
      ∧ (t.2 = BOp.X i → t.1.eval env = (Parameter omega).eval env / 2) := by
    intro j hj
    subst hj
    constructor
    · intro hbad
      simp at hbad
    · intro _
      simp [SExpr.eval]
  have hycase : ∀ j : ℕ, t = (SExpr.negE (SExpr.mulE (SExpr.divE (Parameter omega)
      (SExpr.const 2)) (SExpr.sinE (SExpr.const 0))), BOp.Y j) →
      (t.2 = BOp.Y i → t.1.eval env = 0)
      ∧ (t.2 = BOp.X i → t.1.eval env = (Parameter omega).eval env / 2) := by
    intro j hj
    subst hj
    constructor
    · intro _
      simp [SExpr.eval]
    · intro hbad
      simp at hbad
  have hncase : ∀ j : ℕ, t = (SExpr.negE (SExpr.mulE (Parameter delta) (SExpr.const 1)),
      BOp.N j) →
      (t.2 = BOp.Y i → t.1.eval env = 0)
      ∧ (t.2 = BOp.X i → t.1.eval env = (Parameter omega).eval env / 2) := by
    intro j hj
    subst hj
    constructor
    · intro hbad
      simp at hbad
    · intro hbad
      simp at hbad
  have hopcase : ∀ g : Gen, Gen.noXY g = true → t ∈ g →
      (t.2 = BOp.Y i → t.1.eval env = 0)
      ∧ (t.2 = BOp.X i → t.1.eval env = (Parameter omega).eval env / 2) := by
    intro g hg hmem
    simp only [Gen.noXY, List.all_eq_true] at hg
    have hmatch := hg t hmem
    constructor
    · intro h2
      rw [h2] at hmatch
      simp at hmatch
    · intro h2
      rw [h2] at hmatch
      simp at hmatch
  rcases hpat : register.patternGen with _ | p
  · simp only [AnalogDrive.build, rydberg_pattern_hamiltonian, rydberg_interaction_hamiltonian,
      hpat, Option.isSome_none, Bool.and_false, Bool.false_eq_true, if_false, Gen.sub,
      Option.getD_none, Parameter, Gen.scale_map, Gen.negG_map, List.append_eq,
      List.mem_append, List.mem_map] at ht
    rcases ht with (((⟨j, _, hj⟩ | ⟨j, _, hj⟩) | ⟨j, _, hj⟩) | hmem)
    · exact hxcase j hj.symm
    · exact hycase j hj.symm
    · exact hncase j hj.symm
    · exact hopcase register.interactionGen hI hmem
  · rw [hpat] at hP
    simp only [AnalogDrive.build, rydberg_pattern_hamiltonian, rydberg_interaction_hamiltonian,
      hpat, Option.isSome_some, Bool.and_true, eq_self_iff_true, if_true, Gen.sub,
      Option.getD_some, Parameter, Gen.scale_map, Gen.negG_map, List.append_eq,
      List.mem_append, List.mem_map] at ht
    rcases ht with ((((⟨j, _, hj⟩ | ⟨j, _, hj⟩) | ⟨j, _, hj⟩) | hmem) | hmemp)
    · exact hxcase j hj.symm
    · exact hycase j hj.symm
    · exact hncase j hj.symm
    · exact hopcase register.interactionGen hI hmem
    · exact hopcase p hP hmemp

/-- Witness for C10 at a concrete register whose interaction and pattern
terms carry no X or Y operator. -/
theorem drive_defaults_phase_zero_pattern_true_witness :
    (Gen.noXY regP.interactionGen = true
      ∧ Gen.noXY (regP.patternGen.getD []) = true)
    ∧ (AnalogDrive.mk regP (TParameter.num 5) (TParameter.name "o") (TParameter.num 1)
        = AnalogDrive.mk regP (TParameter.num 5) (TParameter.name "o") (TParameter.num 1)
            (TParameter.num 0) none true
      ∧ AnalogDrive.build regP (TParameter.num 5) (TParameter.name "o") (TParameter.num 1)
        = AnalogDrive.build regP (TParameter.num 5) (TParameter.name "o") (TParameter.num 1)
            (TParameter.num 0) none true
      ∧ (AnalogDrive.build regP (TParameter.num 5) (TParameter.name "o")
          (TParameter.num 1)).add_pattern = true
      ∧ (AnalogDrive.build regP (TParameter.num 5) (TParameter.name "o")
          (TParameter.num 1)).parameters.get "phase" = some (SExpr.const 0)
      ∧ ∀ t ∈ (AnalogDrive.build regP (TParameter.num 5) (TParameter.name "o")
            (TParameter.num 1)).generator,
          ∀ (env : String → ℝ) (i : ℕ),
            (t.2 = BOp.Y i → t.1.eval env = 0)
            ∧ (t.2 = BOp.X i → t.1.eval env
                = (Parameter (TParameter.name "o")).eval env / 2)) :=
  ⟨⟨by decide, by decide⟩,
    drive_defaults_phase_zero_pattern_true regP (TParameter.num 5) (TParameter.name "o")
      (TParameter.num 1) (by decide) (by decide)⟩

end Qadence
